import Mathlib

/-!
Verification development for the tempita-lite templating engine
(`tempita_lite.py`): a shallow embedding of the lexer, whitespace
trimmer, recursive-descent parser and tree-walking interpreter,
together with theorems settling the specification claims.

Python strings are modelled as `List Char`; machine integers are `Int`;
code that raises exceptions returns `Except`/an explicit signal type.
-/

namespace TempitaLite

/-! ## Python string primitives used by the source -/

/-- Python whitespace characters (`str.strip`, `\s` on ASCII input). -/
def pyIsSpace (c : Char) : Bool :=
  c = ' ' || c = '\t' || c = '\n' || c = '\r' || c = '\x0b' || c = '\x0c'

/-- Python `str.lstrip()`. -/
def pyLStrip (s : List Char) : List Char := s.dropWhile pyIsSpace

/-- Python `str.rstrip()`. -/
def pyRStrip (s : List Char) : List Char := (s.reverse.dropWhile pyIsSpace).reverse

/-- Python `str.strip()`. -/
def pyStrip (s : List Char) : List Char := pyRStrip (pyLStrip s)

/-- Python `string.count(c, a, b)`: occurrences of `c` in `string[a:b]`. -/
def pyCount (s : List Char) (c : Char) (a b : Nat) : Nat :=
  ((s.drop a).take (b - a)).count c

/-- Index of the last occurrence of `c` in a list, if any. -/
def lastIdxOf (c : Char) : List Char → Option Nat
  | [] => none
  | d :: rest =>
    match lastIdxOf c rest with
    | some k => some (k + 1)
    | none => if d = c then some 0 else none

/-- Python `string.rfind(c, a, b)`: highest index of `c` in `string[a:b]`,
`-1` when absent. -/
def pyRFind (s : List Char) (c : Char) (a b : Nat) : Int :=
  match lastIdxOf c ((s.drop a).take (b - a)) with
  | some k => (a : Int) + k
  | none => -1

/-! ## Position tracking (`find_position`) -/

/-- A source position `(line, column)`, both 1-based, as Python integers. -/
abbrev Pos := Int × Int

/-- `find_position` from the source: given a string and index, return
`(line, column)`, computed incrementally from `(last_index, last_pos)`. -/
def find_position (s : List Char) (index last_index : Nat) (last_pos : Pos) : Pos :=
  let lines := pyCount s '\n' last_index index
  let column : Int :=
    if 0 < lines then (index : Int) - pyRFind s '\n' last_index index
    else last_pos.2 + ((index : Int) - (last_index : Int))
  (last_pos.1 + lines, column)

/-- From-scratch position scanner (the specification-side definition of
"the (line, column) of an offset obtained by scanning from the start"):
start at `(1, 1)`, a newline moves to the next line at column 1, any
other character advances the column. -/
def scanPosAux : List Char → Pos → Pos
  | [], p => p
  | c :: rest, p =>
    scanPosAux rest (if c = '\n' then (p.1 + 1, 1) else (p.1, p.2 + 1))

/-- Position of offset `i` in `s`, scanning from the start at `(1, 1)`. -/
def scanPos (s : List Char) (i : Nat) : Pos :=
  scanPosAux (s.take i) (1, 1)

/-! ## Lexer -/

/-- A lexer token: either a literal-text run, or a directive
`(raw_text, position)` pair. -/
inductive Tok where
  | lit (s : List Char)
  | dir (text : List Char) (pos : Pos)
deriving DecidableEq, Repr

/-- Default delimiters of `Template.default_namespace`. -/
def delimOpen : List Char := ['{', '{']

/-- Default closing delimiter. -/
def delimClose : List Char := ['}', '}']

/-- Lex error (models `TemplateError`: message plus optional position; the
template-name field is omitted, all modelled templates have `name=None`). -/
structure TemplateErr where
  msg : String
  pos : Option Pos
deriving DecidableEq, Repr

/-- The delimiter occurrences found by `token_re.finditer`: scanning left to
right, at each index try the open delimiter first, then the close delimiter,
and continue after the end of a match.  Each entry is
`(start index, is open delimiter)`.  The first argument bounds the number of
scanning steps; every step strips at least one character, so the length of
the scanned text plus one always suffices. -/
def findMatchesGo (d0 d1 : List Char) : Nat → List Char → Nat → List (Nat × Bool)
  | 0, _, _ => []
  | _ + 1, [], _ => []
  | fuel + 1, c :: rest, i =>
    if d0.isPrefixOf (c :: rest) then
      (i, true) :: findMatchesGo d0 d1 fuel (rest.drop (d0.length - 1)) (i + d0.length)
    else if d1.isPrefixOf (c :: rest) then
      (i, false) :: findMatchesGo d0 d1 fuel (rest.drop (d1.length - 1)) (i + d1.length)
    else
      findMatchesGo d0 d1 fuel rest (i + 1)
termination_by structural fuel _ _ => fuel

/-- All delimiter matches of the scanned text. -/
def findMatches (d0 d1 : List Char) (s : List Char) (i : Nat) : List (Nat × Bool) :=
  findMatchesGo d0 d1 (s.length + 1) s i

/-- The main loop of `lex`: walk the delimiter matches, tracking whether we
are inside a directive, the end offset of the previous match and its
position.  Returns the chunk list produced from this point on. -/
def lexLoop (s d0 d1 : List Char) :
    List (Nat × Bool) → Bool → Nat → Pos → Except TemplateErr (List Tok)
  | [], inExpr, last, lastPos =>
    if inExpr then
      .error ⟨"No " ++ String.mk d1 ++ " to finish last expression", some lastPos⟩
    else
      let part := s.drop last
      .ok (if part = [] then [] else [Tok.lit part])
  | (start, isOpen) :: ms, inExpr, last, lastPos =>
    let dlen := if isOpen then d0.length else d1.length
    let pos := find_position s (start + dlen) last lastPos
    if isOpen && inExpr then
      .error ⟨String.mk d0 ++ " inside expression", some pos⟩
    else if !isOpen && !inExpr then
      .error ⟨String.mk d1 ++ " outside expression", some pos⟩
    else if isOpen then
      let part := (s.drop last).take (start - last)
      match lexLoop s d0 d1 ms true (start + dlen) pos with
      | .error e => .error e
      | .ok rest => .ok (if part = [] then rest else Tok.lit part :: rest)
    else
      let part := (s.drop last).take (start - last)
      match lexLoop s d0 d1 ms false (start + dlen) pos with
      | .error e => .error e
      | .ok rest => .ok (Tok.dir part lastPos :: rest)

/-- `lex` from the source (delimiters passed explicitly; `trim_whitespace`
applied by the wrappers below once `trim_lex` is defined). -/
def lexRaw (s : List Char) (line_offset : Int) (d0 d1 : List Char) :
    Except TemplateErr (List Tok) :=
  lexLoop s d0 d1 (findMatches d0 d1 s 0) false 0 (line_offset + 1, 1)

/-- `lex` with default delimiters and `trim_whitespace=False`. -/
def lexNoTrim (s : String) : Except TemplateErr (List Tok) :=
  lexRaw s.toList 0 delimOpen delimClose

/-! ## Whitespace trimmer (`trim_lex`) -/

/-- `statement_re`: does the directive text start with one of the
control-keyword alternatives `if `, `elif `, `for `, `def `, `inherit `,
`default` (no trailing space on the last one, as in the source regex)? -/
def statement_re_search (item : List Char) : Bool :=
  ["if ", "elif ", "for ", "def ", "inherit ", "default"].any
    (fun p => p.toList.isPrefixOf item)

/-- `single_statements` from the source. -/
def single_statements : List (List Char) :=
  ["else", "endif", "endfor", "enddef", "continue", "break"].map String.toList

/-- Does `cs` match `trail_whitespace_re` (`\n\r?[\t ]*$`) exactly at its
start, i.e. a newline, an optional carriage return, then only horizontal
whitespace to the end? -/
def tailWsMatch : List Char → Bool
  | '\n' :: rest =>
    let rest2 := match rest with
      | '\r' :: more => more
      | _ => rest
    rest2.all (fun c => c = '\t' || c = ' ')
  | _ => false

/-- `trail_whitespace_re.search`: start index of the leftmost match of
`\n\r?[\t ]*$`, if any. -/
def trailWsStart : List Char → Option Nat
  | [] => none
  | c :: rest =>
    if tailWsMatch (c :: rest) then some 0
    else (trailWsStart rest).map (· + 1)

/-- `lead_whitespace_re.search` (`^[\t ]*\n`): end index of the match when
the string begins with horizontal whitespace followed by a newline. -/
def leadWsEnd : List Char → Option Nat
  | [] => none
  | c :: rest =>
    if c = '\n' then some 1
    else if c = '\t' || c = ' ' then (leadWsEnd rest).map (· + 1)
    else none

/-- Tri-state value of the `prev_ok` variable in `trim_lex`
(`False` / `True` / `'last'`). -/
inductive PrevOk where
  | no
  | yes
  | last
deriving DecidableEq, Repr

/-- One iteration of the `trim_lex` loop at index `i`: returns the updated
token list and `last_trim`.  Follows the source line by line; `tokens` keeps
its length (entries are only overwritten in place). -/
def trimStep (tokens : List Tok) (i : Nat) (last_trim : Option Nat) :
    List Tok × Option Nat :=
  match tokens.get? i with
  | none => (tokens, last_trim)
  | some (Tok.lit _) => (tokens, last_trim)
  | some (Tok.dir text pos) =>
    let item := pyStrip text
    let tokens := tokens.set i (Tok.dir item pos)
    if !(statement_re_search item) && !(decide (item ∈ single_statements)) then
      (tokens, last_trim)
    else
      let prev : Tok := if i = 0 then Tok.lit [] else tokens.getD (i - 1) (Tok.lit [])
      let next_chunk : Tok :=
        if i + 1 ≥ tokens.length then Tok.lit [] else tokens.getD (i + 1) (Tok.lit [])
      match prev, next_chunk with
      | Tok.lit prev, Tok.lit next_chunk =>
        let prev_ok : PrevOk :=
          if prev = [] || (trailWsStart prev).isSome then .yes else .no
        let prev_ok : PrevOk := if i = 1 && pyStrip prev = [] then .yes else prev_ok
        let prev_ok : PrevOk :=
          match last_trim with
          | some k => if k + 2 = i && pyStrip prev = [] then .last else prev_ok
          | none => prev_ok
        if prev_ok ≠ .no &&
            (next_chunk = [] || (leadWsEnd next_chunk).isSome ||
              ((i : Int) = (tokens.length : Int) - 2 && pyStrip next_chunk = [])) then
          let tokens :=
            if prev ≠ [] then
              if (i = 1 && pyStrip prev = []) || prev_ok = .last then
                tokens.set (i - 1) (Tok.lit [])
              else
                match trailWsStart prev with
                | some m => tokens.set (i - 1) (Tok.lit (prev.take (m + 1)))
                | none => tokens  -- unreachable: prev_ok forces a regex match here
            else tokens
          if next_chunk ≠ [] then
            let last_trim := some i
            if (i : Int) = (tokens.length : Int) - 2 && pyStrip next_chunk = [] then
              (tokens.set (i + 1) (Tok.lit []), last_trim)
            else
              match leadWsEnd next_chunk with
              | some m => (tokens.set (i + 1) (Tok.lit (next_chunk.drop m)), last_trim)
              | none => (tokens, last_trim)  -- unreachable: the condition forces a match
          else (tokens, last_trim)
        else (tokens, last_trim)
      | _, _ => (tokens, last_trim)

/-- The `for i in range(len(tokens))` loop of `trim_lex`. -/
def trimGo : Nat → List Tok → Nat → Option Nat → List Tok
  | 0, tokens, _, _ => tokens
  | n + 1, tokens, i, last_trim =>
    let (tokens', last_trim') := trimStep tokens i last_trim
    trimGo n tokens' (i + 1) last_trim'

/-- `trim_lex` from the source. -/
def trim_lex (tokens : List Tok) : List Tok :=
  trimGo tokens.length tokens 0 none

/-- `lex` with default delimiters and `trim_whitespace=True` (the default). -/
def lexTrim (s : String) : Except TemplateErr (List Tok) :=
  (lexNoTrim s).map trim_lex

/-! ## Parser -/

/-- Branch kind of a conditional piece (`if` / `elif` / `else`). -/
inductive CondKind where
  | cIf
  | cElif
  | cElse
deriving DecidableEq, Repr

/-- AST node, mirroring the tuple shapes built by the parse functions.
A conditional piece is `(kind, pos, condition text or none for else, body)`. -/
inductive Node where
  | lit (s : List Char)
  | expr (pos : Pos) (code : List Char)
  | comment (pos : Pos) (text : List Char)
  | brkNode (pos : Pos)
  | contNode (pos : Pos)
  | condNode (pos : Pos) (pieces : List (CondKind × Pos × Option (List Char) × List Node))
  | forNode (pos : Pos) (vars : List (List Char)) (iterExpr : List Char) (body : List Node)
  | defaultNode (pos : Pos) (var : List Char) (code : List Char)
  | inheritNode (pos : Pos) (code : List Char)
  | defNode (pos : Pos) (fname : List Char) (body : List Node)

/-- Python `expr.split()[0]`: the first whitespace-separated word. -/
def pyFirstWord (s : List Char) : List Char :=
  ((s.dropWhile pyIsSpace).takeWhile (fun c => !pyIsSpace c))

/-- `in_re.search` (`\s+in\s+`): the leftmost occurrence of one-or-more
whitespace characters, the letters `in`, then one-or-more whitespace
characters.  Returns `(match start, match end)`. -/
def inReSearch : List Char → Option (Nat × Nat)
  | [] => none
  | c :: rest =>
    if pyIsSpace c then
      let ws := (c :: rest).takeWhile pyIsSpace
      let after := (c :: rest).dropWhile pyIsSpace
      match after with
      | 'i' :: 'n' :: tail =>
        let ws2 := tail.takeWhile pyIsSpace
        if ws2 ≠ [] then some (0, ws.length + 2 + ws2.length)
        else (inReSearch rest).map (fun p => (p.1 + 1, p.2 + 1))
      | _ => (inReSearch rest).map (fun p => (p.1 + 1, p.2 + 1))
    else
      (inReSearch rest).map (fun p => (p.1 + 1, p.2 + 1))

/-- `var_re` (`^[a-z_][a-z0-9_]*$`, case-insensitive). -/
def varReMatch (s : List Char) : Bool :=
  match s with
  | [] => false
  | c :: rest =>
    (c.isAlpha || c = '_') && rest.all (fun d => d.isAlpha || d.isDigit || d = '_')

/-- Python `first.split(None, 1)[1]`: drop leading whitespace, drop the first
word, drop the following whitespace. -/
def pySplitNone1Tail (s : List Char) : List Char :=
  (((s.dropWhile pyIsSpace).dropWhile (fun c => !pyIsSpace c)).dropWhile pyIsSpace)

/-- Python `s.split(sep, 1)` for a one-character separator: either the whole
string (no occurrence) or the parts before and after the first occurrence. -/
def pySplit1 (sep : Char) : List Char → List Char × Option (List Char)
  | [] => ([], none)
  | c :: rest =>
    if c = sep then ([], some rest)
    else
      let (a, b) := pySplit1 sep rest
      (c :: a, b)

/-- `parse_default` from the source (the leading `assert` is modelled as an
error on its unreachable failure). -/
def parse_default (first : List Char) (pos : Pos) (rest : List Tok) :
    Except TemplateErr (Node × List Tok) :=
  if !"default ".toList.isPrefixOf first then .error ⟨"assert", some pos⟩ else
  let first := pySplitNone1Tail first
  match pySplit1 '=' first with
  | (_, none) =>
    .error ⟨"Expression must be " ++ String.mk delimOpen ++ "default var=value" ++
      String.mk delimClose ++ "; no = found in " ++ String.mk first, some pos⟩
  | (p0, some p1) =>
    let var := pyStrip p0
    if var.contains ',' then
      .error ⟨String.mk delimOpen ++ "default x, y = ..." ++ String.mk delimClose ++
        " is not supported", some pos⟩
    else if !varReMatch var then
      .error ⟨"Not a valid variable name for " ++ String.mk delimOpen ++ "default" ++
        String.mk delimClose ++ ": " ++ String.mk var, some pos⟩
    else
      .ok (Node.defaultNode pos var (pyStrip p1), rest)

/-- `parse_inherit` from the source. -/
def parse_inherit (first : List Char) (pos : Pos) (rest : List Tok) :
    Except TemplateErr (Node × List Tok) :=
  if !"inherit ".toList.isPrefixOf first then .error ⟨"assert", some pos⟩ else
  .ok (Node.inheritNode pos (pySplitNone1Tail first), rest)

mutual

/-- `parse_expr` from the source: dispatch on the head token.  The `fuel`
argument bounds the recursion depth (each call consumes at least one token,
so `tokens.length + 1` always suffices); `context` is the stack of open
block kinds. -/
def parse_expr : Nat → List Tok → List String → Except TemplateErr (Node × List Tok)
  | 0, _, _ => .error ⟨"recursion bound exhausted", none⟩
  | _ + 1, [], _ => .error ⟨"no token", none⟩
  | _ + 1, Tok.lit s :: rest, _ => .ok (Node.lit s, rest)
  | fuel + 1, Tok.dir text pos :: rest, context =>
    let expr := pyStrip text
    if expr = "continue".toList || expr = "break".toList then
      if !context.contains "for" then
        .error ⟨"continue outside of for loop", some pos⟩
      else if expr = "continue".toList then .ok (Node.contNode pos, rest)
      else .ok (Node.brkNode pos, rest)
    else if "if ".toList.isPrefixOf expr then
      parse_cond fuel (Tok.dir text pos :: rest) context
    else if "elif ".toList.isPrefixOf expr || expr = "else".toList then
      .error ⟨String.mk (pyFirstWord expr) ++ " outside of an if block", some pos⟩
    else if expr = "if".toList || expr = "elif".toList || expr = "for".toList then
      .error ⟨String.mk expr ++ " with no expression", some pos⟩
    else if expr = "endif".toList || expr = "endfor".toList || expr = "enddef".toList then
      .error ⟨"Unexpected " ++ String.mk expr, some pos⟩
    else if "for ".toList.isPrefixOf expr then
      parse_for fuel (Tok.dir text pos :: rest) context
    else if "default ".toList.isPrefixOf expr then
      parse_default text pos rest
    else if "inherit ".toList.isPrefixOf expr then
      parse_inherit text pos rest
    else if "def ".toList.isPrefixOf expr then
      parse_def fuel (Tok.dir text pos :: rest) context
    else if "#".toList.isPrefixOf expr then
      .ok (Node.comment pos text, rest)
    else
      .ok (Node.expr pos text, rest)
termination_by structural fuel _ _ => fuel

/-- `parse_cond` from the source: collect `parse_one_cond` pieces until the
`endif` token. -/
def parse_cond (fuel : Nat) (tokens : List Tok) (context : List String) :
    Except TemplateErr (Node × List Tok) :=
  match fuel with
  | 0 => .error ⟨"recursion bound exhausted", none⟩
  | fuel + 1 =>
    match tokens with
    | [] => .error ⟨"no token", none⟩
    | first :: _ =>
      let start : Pos := match first with
        | Tok.dir _ p => p
        | Tok.lit _ => (0, 0)  -- unreachable: parse_cond is entered at a directive
      parse_cond_go fuel tokens (context ++ ["if"]) start []
termination_by structural fuel

/-- The `while 1` loop of `parse_cond`. -/
def parse_cond_go (fuel : Nat) (tokens : List Tok) (context : List String)
    (start : Pos) (pieces : List (CondKind × Pos × Option (List Char) × List Node)) :
    Except TemplateErr (Node × List Tok) :=
  match fuel with
  | 0 => .error ⟨"recursion bound exhausted", none⟩
  | fuel + 1 =>
    match tokens with
    | [] => .error ⟨"Missing " ++ String.mk delimOpen ++ "endif" ++ String.mk delimClose,
        some start⟩
    | Tok.dir t _ :: rest =>
      if t = "endif".toList then
        .ok (Node.condNode start pieces, rest)
      else
        match parse_one_cond fuel tokens context with
        | .error e => .error e
        | .ok (piece, tokens') => parse_cond_go fuel tokens' context start (pieces ++ [piece])
    | Tok.lit _ :: _ =>
      match parse_one_cond fuel tokens context with
      | .error e => .error e
      | .ok (piece, tokens') => parse_cond_go fuel tokens' context start (pieces ++ [piece])
termination_by structural fuel

/-- `parse_one_cond` from the source: read one `if`/`elif`/`else` header and
its body, stopping (without consuming) at `endif`/`elif`/`else`. -/
def parse_one_cond (fuel : Nat) (tokens : List Tok) (context : List String) :
    Except TemplateErr ((CondKind × Pos × Option (List Char) × List Node) × List Tok) :=
  match fuel with
  | 0 => .error ⟨"recursion bound exhausted", none⟩
  | fuel + 1 =>
    match tokens with
    | Tok.dir first pos :: tokens =>
      let first := if first.getLast? = some ':' then first.dropLast else first
      if "if ".toList.isPrefixOf first then
        parse_one_cond_go fuel (CondKind.cIf, pos, some (pyLStrip (first.drop 3))) tokens context []
      else if "elif ".toList.isPrefixOf first then
        parse_one_cond_go fuel (CondKind.cElif, pos, some (pyLStrip (first.drop 5))) tokens context []
      else if first = "else".toList then
        parse_one_cond_go fuel (CondKind.cElse, pos, none) tokens context []
      else
        .error ⟨"Unexpected token", some pos⟩  -- models the failing assert
    | _ => .error ⟨"token is not a directive", none⟩  -- unreachable from parse_cond
termination_by structural fuel

/-- The `while 1` loop of `parse_one_cond`. -/
def parse_one_cond_go (fuel : Nat) (head : CondKind × Pos × Option (List Char))
    (tokens : List Tok) (context : List String) (content : List Node) :
    Except TemplateErr ((CondKind × Pos × Option (List Char) × List Node) × List Tok) :=
  match fuel with
  | 0 => .error ⟨"recursion bound exhausted", none⟩
  | fuel + 1 =>
    match tokens with
    | [] => .error ⟨"No " ++ String.mk delimOpen ++ "endif" ++ String.mk delimClose,
        some head.2.1⟩
    | Tok.dir t p :: rest =>
      if t = "endif".toList || "elif ".toList.isPrefixOf t || t = "else".toList then
        .ok ((head.1, head.2.1, head.2.2, content), Tok.dir t p :: rest)
      else
        match parse_expr fuel (Tok.dir t p :: rest) context with
        | .error e => .error e
        | .ok (chunk, tokens') => parse_one_cond_go fuel head tokens' context (content ++ [chunk])
    | Tok.lit s :: rest =>
      match parse_expr fuel (Tok.lit s :: rest) context with
      | .error e => .error e
      | .ok (chunk, tokens') => parse_one_cond_go fuel head tokens' context (content ++ [chunk])
termination_by structural fuel

/-- `parse_for` from the source. -/
def parse_for (fuel : Nat) (tokens : List Tok) (context : List String) :
    Except TemplateErr (Node × List Tok) :=
  match fuel with
  | 0 => .error ⟨"recursion bound exhausted", none⟩
  | fuel + 1 =>
    match tokens with
    | Tok.dir first pos :: tokens =>
      let context := "for" :: context
      if !"for ".toList.isPrefixOf first then .error ⟨"assert", some pos⟩ else
      let first := if first.getLast? = some ':' then first.dropLast else first
      let first := pyStrip (first.drop 3)
      match inReSearch first with
      | none =>
        .error ⟨"Bad for (no \x22in\x22) in " ++ String.mk first, some pos⟩
      | some (mstart, mend) =>
        let varsText := first.take mstart
        if varsText.contains '(' then
          .error ⟨"You cannot have () in the variable section of a for loop (" ++
            String.mk varsText ++ ")", some pos⟩
        else
          let vars := ((varsText.splitOn ',').map pyStrip).filter (fun v => v ≠ [])
          let iterExpr := first.drop mend
          parse_for_go fuel pos vars iterExpr tokens context []
    | _ => .error ⟨"token is not a directive", none⟩  -- unreachable from parse_expr
termination_by structural fuel

/-- The `while 1` loop of `parse_for`. -/
def parse_for_go (fuel : Nat) (pos : Pos) (vars : List (List Char))
    (iterExpr : List Char) (tokens : List Tok) (context : List String)
    (content : List Node) : Except TemplateErr (Node × List Tok) :=
  match fuel with
  | 0 => .error ⟨"recursion bound exhausted", none⟩
  | fuel + 1 =>
    match tokens with
    | [] => .error ⟨"No " ++ String.mk delimOpen ++ "endfor" ++ String.mk delimClose,
        some pos⟩
    | Tok.dir t p :: rest =>
      if t = "endfor".toList then
        .ok (Node.forNode pos vars iterExpr content, rest)
      else
        match parse_expr fuel (Tok.dir t p :: rest) context with
        | .error e => .error e
        | .ok (chunk, tokens') => parse_for_go fuel pos vars iterExpr tokens' context (content ++ [chunk])
    | Tok.lit s :: rest =>
      match parse_expr fuel (Tok.lit s :: rest) context with
      | .error e => .error e
      | .ok (chunk, tokens') => parse_for_go fuel pos vars iterExpr tokens' context (content ++ [chunk])
termination_by structural fuel

/-- `parse_def` from the source (the parameter signature is parsed in the
original as a no-op placeholder and dropped here, as in the spec). -/
def parse_def (fuel : Nat) (tokens : List Tok) (context : List String) :
    Except TemplateErr (Node × List Tok) :=
  match fuel with
  | 0 => .error ⟨"recursion bound exhausted", none⟩
  | fuel + 1 =>
    match tokens with
    | Tok.dir first start :: tokens =>
      if !"def ".toList.isPrefixOf first then .error ⟨"assert", some start⟩ else
      let func_name := pySplitNone1Tail first
      let context := context ++ ["def"]
      parse_def_go fuel start func_name tokens context []
    | _ => .error ⟨"token is not a directive", none⟩  -- unreachable from parse_expr
termination_by structural fuel

/-- The `while 1` loop of `parse_def`. -/
def parse_def_go (fuel : Nat) (start : Pos) (func_name : List Char)
    (tokens : List Tok) (context : List String) (content : List Node) :
    Except TemplateErr (Node × List Tok) :=
  match fuel with
  | 0 => .error ⟨"recursion bound exhausted", none⟩
  | fuel + 1 =>
    match tokens with
    | [] => .error ⟨"Missing " ++ String.mk delimOpen ++ "enddef" ++ String.mk delimClose,
        some start⟩
    | Tok.dir t p :: rest =>
      if t = "enddef".toList then
        .ok (Node.defNode start func_name content, rest)
      else
        match parse_expr fuel (Tok.dir t p :: rest) context with
        | .error e => .error e
        | .ok (chunk, tokens') => parse_def_go fuel start func_name tokens' context (content ++ [chunk])
    | Tok.lit s :: rest =>
      match parse_expr fuel (Tok.lit s :: rest) context with
      | .error e => .error e
      | .ok (chunk, tokens') => parse_def_go fuel start func_name tokens' context (content ++ [chunk])
termination_by structural fuel

end

/-- The `while tokens` loop of `parse`. -/
def parseTokens : Nat → List Tok → Except TemplateErr (List Node)
  | 0, _ => .error ⟨"recursion bound exhausted", none⟩
  | _ + 1, [] => .ok []
  | fuel + 1, tokens =>
    match parse_expr (fuel + 1) tokens [] with
    | .error e => .error e
    | .ok (chunk, rest) =>
      match parseTokens fuel rest with
      | .error e => .error e
      | .ok result => .ok (chunk :: result)

/-- `parse` from the source: lex (with trimming), then parse every token. -/
def parse (s : List Char) (line_offset : Int) : Except TemplateErr (List Node) :=
  match lexRaw s line_offset delimOpen delimClose with
  | .error e => .error e
  | .ok chunks =>
    let tokens := trim_lex chunks
    parseTokens ((tokens.length + 2) * (tokens.length + 2)) tokens

/-- `parse` on a string with default arguments. -/
def parseStr (s : String) : Except TemplateErr (List Node) :=
  parse s.toList 0

/-! ## Values and namespaces -/

/-- Runtime values of the interpreter model: the Python values exercised by
the engine (`None`, integers, strings, booleans, lists), the `Empty`
sentinel, the inheritance proxy `TemplateObject` and its
`TemplateObjectGetter` wrapper (represented by their attribute
dictionaries), and `TemplateDef` closures.  `getterMarker` is the stored
reference to the `TemplateObjectGetter` that `TemplateObject.__init__`
assigns to the `get` instance attribute: the reference is cyclic in Python
(the wrapper holds the object that holds the wrapper), so the dictionary
entry holds this marker and attribute lookup dereferences it to the wrapper
around the dictionary current at lookup time. -/
inductive Value where
  | pyNone
  | int (n : Int)
  | str (s : String)
  | bool (b : Bool)
  | list (l : List Value)
  | empty
  | tmplObj (attrs : List (String × Value))
  | getterOf (attrs : List (String × Value))
  | getterMarker
  | tmplDef (body : List Node) (ns : List (String × Value))

/-- A namespace: a Python dict modelled as an association list with unique
keys maintained by `nsSet`. -/
abbrev NS := List (String × Value)

/-- Dict lookup. -/
def nsGet (ns : NS) (k : String) : Option Value :=
  (ns.find? (fun p => p.1 = k)).map (·.2)

/-- Dict assignment `ns[k] = v`: replace the existing entry or append. -/
def nsSet : NS → String → Value → NS
  | [], k, v => [(k, v)]
  | (k', v') :: rest, k, v =>
    if k' = k then (k, v) :: rest else (k', v') :: nsSet rest k v

/-- Dict `pop(k)` (the removal part). -/
def nsRemove (ns : NS) (k : String) : NS :=
  ns.filter (fun p => p.1 ≠ k)

/-- Dict `update`: assign every entry of `l` into `ns`, in order. -/
def nsUpdate (ns l : NS) : NS :=
  l.foldl (fun a p => nsSet a p.1 p.2) ns

/-- Python truthiness of a value (`_Empty.__bool__` returns `False`). -/
def truthy : Value → Bool
  | .pyNone => false
  | .int n => n != 0
  | .str s => s != ""
  | .bool b => b
  | .list l => !l.isEmpty
  | .empty => false
  | .tmplObj _ => true
  | .getterOf _ => true
  | .getterMarker => true
  | .tmplDef _ _ => true

/-- Python iteration over a value (`_Empty.__iter__` yields nothing; strings
iterate over their characters). -/
def valueIter : Value → Except String (List Value)
  | .list l => .ok l
  | .str s => .ok (s.toList.map (fun c => .str (String.mk [c])))
  | .empty => .ok []
  | _ => .error "TypeError: object is not iterable"

/-- Python `len` of a value (a `TypeError` otherwise). -/
def valueLen : Value → Except String Nat
  | .list l => .ok l.length
  | .str s => .ok s.length
  | _ => .error "TypeError: object has no length"

/-- Python `str()` of a value, as used by `_repr`/`coerce_text`
(`_Empty.__str__` returns the empty string; list and template-value reprs
are not exercised by any claim and are modelled by placeholders). -/
def valueStr : Value → String
  | .pyNone => "None"
  | .int n => toString n
  | .str s => s
  | .bool b => if b then "True" else "False"
  | .list _ => "<list>"
  | .empty => ""
  | .tmplObj _ => "<TemplateObject>"
  | .getterOf _ => "<TemplateObjectGetter>"
  | .getterMarker => "<TemplateObjectGetter>"
  | .tmplDef _ _ => "<TemplateDef>"

/-- `Template._repr`: `None` renders as the empty string, all other values
via text coercion (the encoding branches do not arise for the modelled
values). -/
def reprValue : Value → String
  | .pyNone => ""
  | v => valueStr v

/-- Python function application `func(base)` for filter values: the `Empty`
sentinel returns itself; other modelled values are not callable
(`TemplateDef.__call__` re-renders a body and is outside the claims). -/
def applyValue : Value → Value → Except String Value
  | .empty, _ => .ok .empty
  | _, _ => .error "TypeError: object is not callable"

/-! ## Expression evaluator (external capability) -/

/-- Helper for `evalExpr`: a nonempty all-digit literal to an integer. -/
def digitsToInt (s : List Char) : Int :=
  s.foldl (fun a c => a * 10 + (c.toNat - '0'.toNat : Int)) 0

/-- Atomic expressions of the evaluator model: a nonempty all-digit integer
literal, or a variable name resolved two-tier as in Python
`eval(code, self.default_namespace, ns)`: the local namespace first, then
the default (global) namespace. -/
def evalAtom (defaults ns : NS) (c : List Char) : Except String Value :=
  if c ≠ [] && c.all Char.isDigit then
    .ok (.int (digitsToInt c))
  else
    let name := String.mk c
    match nsGet ns name with
    | some v => .ok v
    | none =>
      match nsGet defaults name with
      | some v => .ok v
      | none => .error ("NameError: name " ++ name ++ " is not defined")

/-- Models the external expression-evaluation capability (spec section 6;
Python `eval` in `Template._eval`) on the expression fragment the claims
exercise: integer literals, variable names, and `not ATOM`. -/
def evalExpr (defaults ns : NS) (code : List Char) : Except String Value :=
  let c := pyStrip code
  if "not ".toList.isPrefixOf c then
    match evalAtom defaults ns (pyStrip (c.drop 4)) with
    | .error m => .error m
    | .ok v => .ok (.bool (!truthy v))
  else
    evalAtom defaults ns c

/-- `Template._add_line_info` (with `name=None`, so no file part). -/
def _add_line_info (msg : String) (pos : Pos) : String :=
  msg ++ " at line " ++ toString pos.1 ++ " column " ++ toString pos.2

/-- `Template._eval`: evaluate through the capability and annotate any error
with the directive position. -/
def _eval (code : List Char) (defaults ns : NS) (pos : Pos) : Except String Value :=
  match evalExpr defaults ns code with
  | .ok v => .ok v
  | .error m => .error (_add_line_info m pos)

/-! ## Interpreter -/

/-- Outcome of interpreting a node sequence: normal completion, the
`_TemplateContinue` / `_TemplateBreak` control signals, or an error.  The
accompanying state is always returned, mirroring the mutation of the
shared `out`/`ns`/`defs` objects in the source. -/
inductive Signal where
  | done
  | contSig
  | brkSig
  | err (msg : String)
deriving DecidableEq, Repr

/-- The mutable interpretation state: the output part list `out`, the
namespace `ns`, and the collected definitions `defs`. -/
structure IState where
  out : List String
  ns : NS
  defs : NS

/-- The error message of `_interpret_for`'s unpack-count check
(`Need %i items to unpack (got %i items)`). -/
def unpackMsg (expected got : Nat) : String :=
  "Need " ++ toString expected ++ " items to unpack (got " ++ toString got ++ " items)"

/-- Binding of the loop variables to one iterated element in
`_interpret_for`: one variable takes the whole element; several require the
element to have exactly that many parts and bind pairwise. -/
def bindVars (vars : List (List Char)) (item : Value) : IState → Except String IState
  | ⟨out, ns, defs⟩ =>
    match vars with
    | [v] => .ok ⟨out, nsSet ns (String.mk v) item, defs⟩
    | _ =>
      match valueLen item with
      | .error m => .error m
      | .ok n =>
        if vars.length ≠ n then .error (unpackMsg vars.length n)
        else
          match valueIter item with
          | .error m => .error m
          | .ok parts =>
            let ns2 := ((vars.map String.mk).zip parts).foldl
              (fun a p => nsSet a p.1 p.2) ns
            .ok ⟨out, ns2, defs⟩

/-- The filter chain of an `expr` directive: evaluate each filter expression
to a callable and apply it to the running value, left to right. -/
def _interpret_filters (defaults : NS) (filters : List (List Char))
    (base : Value) (pos : Pos) (ns : NS) : Except String Value :=
  match filters with
  | [] => .ok base
  | p :: rest =>
    match _eval p defaults ns pos with
    | .error m => .error m
    | .ok func =>
      match applyValue func base with
      | .error m => .error m
      | .ok v => _interpret_filters defaults rest v pos ns

mutual

/-- `Template._interpret_codes`: interpret each node in order; a signal or
error stops the walk and propagates.  The `Nat` argument bounds the number
of interpretation steps (the source recursion is unbounded; `_interpret`
supplies a bound that no computation in this file comes near). -/
def _interpret_codes (defaults : NS) : Nat → List Node → IState → IState × Signal
  | 0, _, st => (st, .err "recursion bound exhausted")
  | _ + 1, [], st => (st, .done)
  | fuel + 1, item :: rest, st =>
    match _interpret_code defaults fuel item st with
    | (st', .done) => _interpret_codes defaults fuel rest st'
    | r => r
termination_by structural fuel _ _ => fuel

/-- `Template._interpret_code`: dispatch on the node kind.  The state is
destructured up front, mirroring the three mutable objects of the source
(`out`, `ns`, `defs`). -/
def _interpret_code (defaults : NS) : Nat → Node → IState → IState × Signal
  | 0, _, st => (st, .err "recursion bound exhausted")
  | fuel + 1, code, ⟨out, ns, defs⟩ =>
    match code with
    | .lit s => (⟨out ++ [String.mk s], ns, defs⟩, .done)
    | .contNode _ => (⟨out, ns, defs⟩, .contSig)
    | .brkNode _ => (⟨out, ns, defs⟩, .brkSig)
    | .forNode pos vars e content =>
      match _eval e defaults ns pos with
      | .error m => (⟨out, ns, defs⟩, .err m)
      | .ok v =>
        match valueIter v with
        | .error m => (⟨out, ns, defs⟩, .err m)
        | .ok items => _interpret_for defaults fuel vars content items ⟨out, ns, defs⟩
    | .condNode _ pieces => _interpret_if defaults fuel pieces ⟨out, ns, defs⟩
    | .expr pos code =>
      match code.splitOn '|' with
      | [] => (⟨out, ns, defs⟩, .err "empty expression")  -- unreachable: split yields at least one part
      | p0 :: filters =>
        match _eval p0 defaults ns pos with
        | .error m => (⟨out, ns, defs⟩, .err m)
        | .ok base =>
          -- Template.default_filter is None, so no default output filter applies
          match _interpret_filters defaults filters base pos ns with
          | .error m => (⟨out, ns, defs⟩, .err m)
          | .ok v => (⟨out ++ [reprValue v], ns, defs⟩, .done)
    | .defaultNode pos var e =>
      match nsGet ns (String.mk var) with
      | some _ => (⟨out, ns, defs⟩, .done)
      | none =>
        match _eval e defaults ns pos with
        | .error m => (⟨out, ns, defs⟩, .err m)
        | .ok v => (⟨out, nsSet ns (String.mk var) v, defs⟩, .done)
    | .inheritNode pos e =>
      match _eval e defaults ns pos with
      | .error m => (⟨out, ns, defs⟩, .err m)
      | .ok v => (⟨out, ns, nsSet defs "__inherit__" v⟩, .done)
    | .defNode _pos fname content =>
      -- the TemplateDef captures the namespace (modelled as a snapshot)
      let v := Value.tmplDef content ns
      (⟨out, nsSet ns (String.mk fname) v, nsSet defs (String.mk fname) v⟩, .done)
    | .comment _ _ => (⟨out, ns, defs⟩, .done)
termination_by structural fuel _ _ => fuel

/-- `Template._interpret_for`: iterate the evaluated expression, bind the
loop variables, interpret the body; a `contSig` from the body moves to the
next element, a `brkSig` ends the loop. -/
def _interpret_for (defaults : NS) :
    Nat → List (List Char) → List Node → List Value → IState → IState × Signal
  | 0, _, _, _, st => (st, .err "recursion bound exhausted")
  | _ + 1, _, _, [], st => (st, .done)
  | fuel + 1, vars, content, item :: rest, st =>
    match bindVars vars item st with
    | .error m => (st, .err m)
    | .ok st' =>
      match _interpret_codes defaults fuel content st' with
      | (st2, .contSig) => _interpret_for defaults fuel vars content rest st2
      | (st2, .brkSig) => (st2, .done)
      | (st2, .err m) => (st2, .err m)
      | (st2, .done) => _interpret_for defaults fuel vars content rest st2
termination_by structural fuel _ _ _ _ => fuel

/-- `Template._interpret_if`: find the first branch that is an `else` or
whose condition evaluates truthy, and interpret its body. -/
def _interpret_if (defaults : NS) :
    Nat → List (CondKind × Pos × Option (List Char) × List Node) → IState →
    IState × Signal
  | 0, _, st => (st, .err "recursion bound exhausted")
  | _ + 1, [], st => (st, .done)
  | fuel + 1, (k, pos, eOpt, content) :: rest, ⟨out, ns, defs⟩ =>
    match k with
    | .cElse => _interpret_codes defaults fuel content ⟨out, ns, defs⟩
    | _ =>
      match eOpt with
      | none => (⟨out, ns, defs⟩, .err "TypeError: condition is None")  -- unreachable: the parser always supplies one
      | some e =>
        match _eval e defaults ns pos with
        | .error m => (⟨out, ns, defs⟩, .err m)
        | .ok v =>
          if truthy v then _interpret_codes defaults fuel content ⟨out, ns, defs⟩
          else _interpret_if defaults fuel rest ⟨out, ns, defs⟩
termination_by structural fuel _ _ => fuel

end

/-- The step bound `_interpret` runs the walk with: far beyond what any
computation in this development needs. -/
def interpretBound : Nat := 1000000

/-- `Template._interpret`: run the node list on a fresh state, join the
output parts, and extract a pending `__inherit__` target from the defs. -/
def _interpret (defaults : NS) (nodes : List Node) (ns : NS) :
    Except String (String × NS × NS × Option Value) :=
  match _interpret_codes defaults interpretBound nodes ⟨[], ns, []⟩ with
  | (st, .done) =>
    .ok (String.join st.out, st.ns, nsRemove st.defs "__inherit__",
         nsGet st.defs "__inherit__")
  | (_, .err m) => .error m
  | (_, .contSig) => .error "continue signal at top level"
  | (_, .brkSig) => .error "break signal at top level"

/-! ## Template objects and substitution -/

/-- A compiled template: source, constructor namespace (`self.namespace`),
and parsed AST.  Models a `Template` built with `name=None` and
`get_template=None`. -/
structure Tmpl where
  content : List Char
  ns0 : NS
  parsed : List Node

/-- `Template.default_namespace` (the `looper` helper entry is an
out-of-scope collaborator and is omitted). -/
def default_namespace : NS :=
  [("start_braces", .str (String.mk delimOpen)),
   ("end_braces", .str (String.mk delimClose))]

/-- `Template.__init__`: parse the content (the only construction step the
claims depend on). -/
def Template_mk (s : String) (ns0 : NS) : Except TemplateErr Tmpl :=
  (parseStr s).map (fun nodes => ⟨s.toList, ns0, nodes⟩)

/-- The namespace `substitute` renders with: a copy of the call arguments,
then `__template_name__`, then updated with the constructor namespace when
that is non-empty. -/
def buildNs (t : Tmpl) (kw : NS) : NS :=
  let ns := nsSet kw "__template_name__" Value.pyNone
  if t.ns0.isEmpty then ns else nsUpdate ns t.ns0

/-- `Template.substitute` for a template with `get_template=None` and
`default_inherit=None`: interpret, and if a truthy inherit target was
recorded fail (inheritance requires `get_template`), otherwise return the
joined output. -/
def substitute (t : Tmpl) (kw : NS) : Except String String :=
  match _interpret default_namespace t.parsed (buildNs t kw) with
  | .error m => .error m
  | .ok (result, _, _, inherit) =>
    let inherit : Option Value := match inherit with
      | some v => if truthy v then some v else none  -- falsy target falls back to default_inherit=None
      | none => none
    match inherit with
    | some _ => .error "You cannot use inheritance without passing in get_template"
    | none => .ok result

/-- Compile-and-substitute in one step (the `sub` convenience function, with
an explicit constructor namespace). -/
def subSt (s : String) (ns0 kw : NS) : Except String String :=
  match Template_mk s ns0 with
  | .error e => .error e.msg
  | .ok t => substitute t kw

/-! ## Inheritance proxy (`_interpret_inherit`, `TemplateObjectGetter`, `Empty`) -/

/-- `TemplateObjectGetter.__getattr__`: `getattr` on the wrapped
`TemplateObject` with `Empty` as the fallback; the lookup consults the
instance dictionary with no special treatment of any name, and a stored
wrapper reference (`getterMarker`) dereferences to the wrapper itself. -/
def getterGetattr (attrs : List (String × Value)) (a : String) : Value :=
  match nsGet attrs a with
  | some .getterMarker => .getterOf attrs
  | some w => w
  | none => .empty

/-- Python `getattr` on the inheritance proxy values: a `TemplateObject`
looks the name up in its instance dictionary — whatever value sits there,
with a stored wrapper reference dereferencing to the
`TemplateObjectGetter` around the object — and raises `AttributeError` for
a missing name; on a `TemplateObjectGetter`, `__getattr__` falls back to
the `Empty` sentinel (the name-mangled private attributes of both classes
are omitted from the dictionaries). -/
def getattrValue : Value → String → Except String Value
  | .tmplObj attrs, a =>
    match nsGet attrs a with
    | some .getterMarker => .ok (.getterOf attrs)
    | some w => .ok w
    | none => .error ("AttributeError: " ++ a)
  | .getterOf attrs, a => .ok (getterGetattr attrs a)
  | _, a => .error ("AttributeError: " ++ a)

/-- The instance dictionary of the `self_` proxy built by
`Template._interpret_inherit`: `TemplateObject.__init__` first assigns the
`get` attribute (the wrapper reference), then the `setattr` loop assigns
every defs entry in order — so a def named `get` overwrites the wrapper
attribute — and `self_.body = body` runs last, overwriting a def named
`body`. -/
def inheritSelfAttrs (defs : NS) (body : String) : NS :=
  nsSet (nsUpdate [("get", Value.getterMarker)] defs) "body" (Value.str body)

/-- The `self_` proxy value built by `Template._interpret_inherit`: a
`TemplateObject` carrying the instance dictionary above. -/
def inheritSelf (defs : NS) (body : String) : Value :=
  Value.tmplObj (inheritSelfAttrs defs body)

/-- The namespace `_interpret_inherit` renders the parent with: a copy of
the child's namespace with the proxy under the reserved key `self`. -/
def inheritNs (defs : NS) (body : String) (ns : NS) : NS :=
  nsSet ns "self" (inheritSelf defs body)

/-! ## Observation helpers used by the claim statements -/

/-- Is a token a literal-text token? -/
def isLitTok : Tok → Bool
  | .lit _ => true
  | .dir _ _ => false

/-- Does a token list avoid two adjacent literal-text tokens? -/
def noAdjacentLits : List Tok → Bool
  | [] => true
  | [_] => true
  | a :: b :: rest => !(isLitTok a && isLitTok b) && noAdjacentLits (b :: rest)

/-- The branch kinds of a `Cond` node, in order (empty for other nodes). -/
def condKinds : Node → List CondKind
  | .condNode _ pieces => pieces.map (fun p => p.1)
  | _ => []

/-- Template sources used in concrete claim instances (written with
escaped braces). -/
def srcBreak : String :=
  "\x7b\x7bfor i in x\x7d\x7d\x7b\x7bif not i\x7d\x7d\x7b\x7bbreak\x7d\x7d\x7b\x7bendif\x7d\x7d\x7b\x7bi\x7d\x7d \x7b\x7bendfor\x7d\x7d"

/-- The continue variant of `srcBreak`. -/
def srcContinue : String :=
  "\x7b\x7bfor i in x\x7d\x7d\x7b\x7bif not i\x7d\x7d\x7b\x7bcontinue\x7d\x7d\x7b\x7bendif\x7d\x7d\x7b\x7bi\x7d\x7d \x7b\x7bendfor\x7d\x7d"

/-- An if directive alone on its line followed by two blank lines. -/
def srcDoubleBlank : String :=
  "\x7b\x7bif x\x7d\x7d\n\ny\n\x7b\x7bendif\x7d\x7d\n"

/-- The `trim_lex` doctest source. -/
def srcTrimDoctest : String :=
  "\x7b\x7bif x\x7d\x7d\nx\n\x7b\x7bendif\x7d\x7d\ny"

/-- A conditional with two else branches. -/
def srcDoubleElse : String :=
  "\x7b\x7bif x\x7d\x7da\x7b\x7belse\x7d\x7db\x7b\x7belse\x7d\x7dc\x7b\x7bendif\x7d\x7d"

/-- A comment directive alone on its source line. -/
def srcCommentLine : String := "x\n\x7b\x7b#c\x7d\x7d\ny"

/-- A break directive alone on its source line. -/
def srcBreakLine : String := "x\n\x7b\x7bbreak\x7d\x7d\ny"

/-- Two directives back to back. -/
def srcAdjacentDirs : String := "\x7b\x7ba\x7d\x7d\x7b\x7bb\x7d\x7d"

/-- Two literal runs separated by one directive. -/
def srcLitDirLit : String := "a\x7b\x7bx\x7d\x7db"

/-- A single expression directive. -/
def srcJustX : String := "\x7b\x7bx\x7d\x7d"

/-- A literal followed by an undefined-variable expression. -/
def srcAbcBoom : String := "abc\x7b\x7bboom\x7d\x7d"

/-- Does a token list strictly alternate literal and directive tokens (no
two adjacent tokens of the same kind)? -/
def strictlyAlternating : List Tok → Bool
  | [] => true
  | [_] => true
  | a :: b :: rest => (isLitTok a != isLitTok b) && strictlyAlternating (b :: rest)

/-! ## Helper lemmas -/

/-- Looking up in a one-step-extended namespace. -/
theorem nsGet_cons (k' : String) (v' : Value) (rest : NS) (k : String) :
    nsGet ((k', v') :: rest) k = if k' = k then some v' else nsGet rest k := by
  by_cases h : k' = k <;> simp [nsGet, List.find?, h]

/-- `nsSet` makes the assigned key visible. -/
theorem nsGet_set_self (ns : NS) (k : String) (v : Value) :
    nsGet (nsSet ns k v) k = some v := by
  induction ns with
  | nil => simp [nsSet, nsGet_cons]
  | cons p rest ih =>
    obtain ⟨k', v'⟩ := p
    by_cases h : k' = k <;> simp [nsSet, h, nsGet_cons, ih]

/-- `nsSet` leaves other keys unchanged. -/
theorem nsGet_set_ne (ns : NS) (k k' : String) (v : Value) (h : k' ≠ k) :
    nsGet (nsSet ns k v) k' = nsGet ns k' := by
  induction ns with
  | nil => simp [nsSet, nsGet_cons, Ne.symm h]
  | cons p rest ih =>
    obtain ⟨k1, v1⟩ := p
    by_cases h1 : k1 = k
    · subst h1
      simp [nsSet, nsGet_cons, Ne.symm h]
    · simp [nsSet, h1, nsGet_cons, ih]

/-- Updating with entries whose keys avoid `k` does not change `k`. -/
theorem nsGet_update_not_mem (l : NS) :
    ∀ (ns : NS) (k : String), (∀ p ∈ l, p.1 ≠ k) →
      nsGet (nsUpdate ns l) k = nsGet ns k := by
  induction l with
  | nil => intro ns k _; simp [nsUpdate]
  | cons p rest ih =>
    intro ns k h
    have hrest : ∀ q ∈ rest, q.1 ≠ k := fun q hq => h q (List.mem_cons_of_mem _ hq)
    have hp : p.1 ≠ k := h p (List.mem_cons_self _ _)
    calc nsGet (nsUpdate ns (p :: rest)) k
        = nsGet (nsUpdate (nsSet ns p.1 p.2) rest) k := by simp [nsUpdate]
      _ = nsGet (nsSet ns p.1 p.2) k := ih _ _ hrest
      _ = nsGet ns k := nsGet_set_ne _ _ _ _ (fun hh => hp hh.symm)

/-- Updating with a duplicate-free entry list makes each of its entries
visible. -/
theorem nsGet_update_mem (l : NS) :
    ∀ (ns : NS) (k : String) (v : Value), (l.map Prod.fst).Nodup →
      nsGet l k = some v → nsGet (nsUpdate ns l) k = some v := by
  induction l with
  | nil => intro ns k v _ h; simp [nsGet, List.find?] at h
  | cons p rest ih =>
    intro ns k v hnd h
    obtain ⟨k1, v1⟩ := p
    rw [List.map_cons, List.nodup_cons] at hnd
    have hupd : nsUpdate ns ((k1, v1) :: rest) = nsUpdate (nsSet ns k1 v1) rest := by
      simp [nsUpdate]
    by_cases hk : k1 = k
    · subst hk
      have h' : v1 = v := by simpa [nsGet_cons] using h
      have hrest : ∀ q ∈ rest, q.1 ≠ k1 := by
        intro q hq hqe
        exact hnd.1 (List.mem_map.mpr ⟨q, hq, hqe⟩)
      rw [hupd, nsGet_update_not_mem rest _ _ hrest, nsGet_set_self, h']
    · rw [nsGet_cons, if_neg hk] at h
      rw [hupd]
      exact ih _ _ _ hnd.2 h

/-- A directive token at the head never forms a literal-literal pair. -/
theorem noAdjacentLits_dir_cons (t : List Char) (p : Pos) (rest : List Tok) :
    noAdjacentLits (Tok.dir t p :: rest) = noAdjacentLits rest := by
  cases rest <;> simp [noAdjacentLits, isLitTok]

/-- A key absent from a dict differs from every entry key. -/
theorem nsGet_none_forall (l : NS) (k : String) (h : nsGet l k = none) :
    ∀ p ∈ l, p.1 ≠ k := by
  induction l with
  | nil => intro p hp; simp at hp
  | cons q rest ih =>
    obtain ⟨k1, v1⟩ := q
    rw [nsGet_cons] at h
    intro p hp
    by_cases hq : k1 = k
    · simp [hq] at h
    · rw [if_neg hq] at h
      rcases List.mem_cons.mp hp with hpe | hpr
      · rw [hpe]; exact hq
      · exact ih h p hpr

/-- An entry of a duplicate-free defs dict (key other than `body`) is
visible in the proxy instance dictionary: the `setattr` loop wrote it after
`__init__` and only the final `body` assignment could overwrite it. -/
theorem nsGet_inheritSelfAttrs_some (defs : NS) (body : String) (a : String)
    (v : Value) (hnd : (defs.map Prod.fst).Nodup) (h : nsGet defs a = some v)
    (hbody : a ≠ "body") :
    nsGet (inheritSelfAttrs defs body) a = some v := by
  rw [inheritSelfAttrs, nsGet_set_ne _ _ _ _ hbody]
  exact nsGet_update_mem defs _ a v hnd h

/-- A name missing from the defs and distinct from `body` and `get` is
missing from the proxy instance dictionary. -/
theorem nsGet_inheritSelfAttrs_none (defs : NS) (body : String) (a : String)
    (h : nsGet defs a = none) (hbody : a ≠ "body") (hget : a ≠ "get") :
    nsGet (inheritSelfAttrs defs body) a = none := by
  rw [inheritSelfAttrs, nsGet_set_ne _ _ _ _ hbody,
    nsGet_update_not_mem defs _ a (nsGet_none_forall defs a h), nsGet_cons,
    if_neg (Ne.symm hget)]
  rfl

/-! ## Claim theorems -/

set_option maxHeartbeats 1000000 in
/-- Claim C1: the break-variant template rendered with `x=[1,2,0,3,4]`
produces `"1 2 "` and the continue variant with `x=[1,2,0,3,0,4]` produces
`"1 2 3 4 "`; and `_interpret_for` always consumes `Break`/`Continue`
signals raised in its body — its result is never a `Break` or `Continue`
signal, so a signal unwinds exactly to the nearest enclosing `For` and no
further. -/
theorem claim_C1 :
    subSt srcBreak [] [("x", Value.list [.int 1, .int 2, .int 0, .int 3, .int 4])] =
      Except.ok "1 2 " ∧
    subSt srcContinue []
        [("x", Value.list [.int 1, .int 2, .int 0, .int 3, .int 0, .int 4])] =
      Except.ok "1 2 3 4 " ∧
    ∀ (defaults : NS) (fuel : Nat) (vars : List (List Char)) (content : List Node)
      (items : List Value) (st : IState),
      (_interpret_for defaults fuel vars content items st).2 ≠ Signal.contSig ∧
      (_interpret_for defaults fuel vars content items st).2 ≠ Signal.brkSig := by
  refine ⟨rfl, rfl, ?_⟩
  intro defaults fuel vars content
  induction fuel generalizing vars content with
  | zero => intro items st; simp [_interpret_for]
  | succ n ih =>
    intro items st
    cases items with
    | nil => simp [_interpret_for]
    | cons item rest =>
      simp only [_interpret_for]
      cases hb : bindVars vars item st with
      | error m => simp
      | ok st' =>
        simp only
        rcases hc : _interpret_codes defaults n content st' with ⟨st2, sig⟩
        cases sig with
        | done => exact ih vars content rest st2
        | contSig => exact ih vars content rest st2
        | brkSig => simp
        | err m => simp

/-- Claim C2: rendering yields no partial output — if interpreting the
template's nodes ends in an error signal, `substitute` returns that error
and discards whatever output parts the interpretation state had
accumulated; if it completes normally (and no inheritance target was
recorded), `substitute` returns exactly the joined accumulated output. -/
theorem claim_C2 (t : Tmpl) (kw : NS) :
    (∀ (st : IState) (m : String),
       _interpret_codes default_namespace interpretBound t.parsed
           ⟨[], buildNs t kw, []⟩ = (st, Signal.err m) →
       substitute t kw = Except.error m) ∧
    (∀ st : IState,
       _interpret_codes default_namespace interpretBound t.parsed
           ⟨[], buildNs t kw, []⟩ = (st, Signal.done) →
       nsGet st.defs "__inherit__" = none →
       substitute t kw = Except.ok (String.join st.out)) := by
  constructor
  · intro st m h
    simp [substitute, _interpret, h]
  · intro st h hinh
    simp [substitute, _interpret, h, hinh]

set_option maxHeartbeats 1000000 in
/-- Witness for C2: a template whose interpretation accumulates the output
part `"abc"` and then fails on an undefined name renders to the error
alone, with the accumulated part discarded. -/
theorem claim_C2_witness :
    substitute ⟨srcAbcBoom.toList, [],
        [Node.lit ['a', 'b', 'c'], Node.expr (1, 6) ['b', 'o', 'o', 'm']]⟩ [] =
      Except.error "NameError: name boom is not defined at line 1 column 6" :=
  (claim_C2 _ []).1 ⟨["abc"], [("__template_name__", Value.pyNone)], []⟩ _ rfl

/-- Claim C7: with two or more loop variables, an iterated element whose
length differs from the variable count makes `_interpret_for` fail
immediately with the count-mismatch message naming the expected and actual
counts, regardless of the remaining elements. -/
theorem claim_C7 (defaults : NS) (fuel : Nat) (vars : List (List Char))
    (content : List Node) (item : Value) (rest : List Value) (st : IState)
    (n : Nat) (h2 : 2 ≤ vars.length) (hlen : valueLen item = Except.ok n)
    (hne : n ≠ vars.length) :
    _interpret_for defaults (fuel + 1) vars content (item :: rest) st =
      (st, Signal.err (unpackMsg vars.length n)) := by
  match vars, h2 with
  | a :: b :: t, _ =>
    have hne2 : ¬(t.length + 1 + 1 = n) := by
      intro hh
      apply hne
      simp only [List.length_cons]
      omega
    simp [_interpret_for, bindVars, hlen, hne2]

/-- Witness for C7: unpacking a three-element list into two variables fails
with `Need 2 items to unpack (got 3 items)`. -/
theorem claim_C7_witness :
    _interpret_for [] 1 [['a'], ['b']] [] [Value.list [.int 1, .int 2, .int 3]]
        ⟨[], [], []⟩ = (⟨[], [], []⟩, Signal.err (unpackMsg 2 3)) :=
  claim_C7 [] 0 [['a'], ['b']] [] (Value.list [.int 1, .int 2, .int 3]) []
    ⟨[], [], []⟩ 3 (by decide) rfl (by decide)

/-- Claim C10: the constructor namespace takes precedence over the
arguments of `substitute`: the render namespace is the call arguments
updated with the constructor namespace, so any key present in both resolves
to the constructor value; concretely, rendering an `x` expression with
constructor `x=1` and call argument `x=2` yields `"1"`. -/
theorem claim_C10 :
    (∀ (t : Tmpl) (kw : NS) (k : String) (v : Value),
       (t.ns0.map Prod.fst).Nodup → nsGet t.ns0 k = some v →
       nsGet (buildNs t kw) k = some v) ∧
    subSt srcJustX [("x", Value.int 1)] [("x", Value.int 2)] = Except.ok "1" := by
  constructor
  · intro t kw k v hnd h
    unfold buildNs
    have hne : t.ns0.isEmpty = false := by
      cases hns : t.ns0 with
      | nil => rw [hns] at h; simp [nsGet, List.find?] at h
      | cons _ _ => simp
    simp only [hne, Bool.false_eq_true, if_false]
    exact nsGet_update_mem _ _ _ _ hnd h
  · rfl

/-- Witness for C10: with constructor namespace `x=1` and call argument
`x=2`, the render namespace resolves `x` to `1`. -/
theorem claim_C10_witness :
    nsGet (buildNs ⟨[], [("x", Value.int 1)], []⟩ [("x", Value.int 2)]) "x" =
      some (Value.int 1) :=
  claim_C10.1 ⟨[], [("x", Value.int 1)], []⟩ [("x", Value.int 2)] "x"
    (Value.int 1) (by simp) rfl

/-- Counterexample for C3: the trimming pass is not idempotent.  Lexing
`srcDoubleBlank` (an if directive alone on its line followed by a blank
line) and trimming once leaves the following literal starting with a blank
line, which a second trim pass removes as well. -/
theorem claim_C3_counterexample :
    lexNoTrim srcDoubleBlank =
      Except.ok [Tok.dir "if x".toList (1, 3), Tok.lit "\n\ny\n".toList,
                 Tok.dir "endif".toList (4, 3), Tok.lit "\n".toList] ∧
    trim_lex (trim_lex [Tok.dir "if x".toList (1, 3), Tok.lit "\n\ny\n".toList,
                 Tok.dir "endif".toList (4, 3), Tok.lit "\n".toList]) ≠
      trim_lex [Tok.dir "if x".toList (1, 3), Tok.lit "\n\ny\n".toList,
                 Tok.dir "endif".toList (4, 3), Tok.lit "\n".toList] :=
  ⟨rfl, by decide⟩

/-- Claim C3 (amended): the trimmer is not idempotent in general — when a
trimmed directive is still followed by a literal with a leading blank line,
a second pass trims again.  It is a no-op on token sequences containing no
directive token, and re-running it on the trimmed doctest source
`srcTrimDoctest` changes nothing. -/
theorem claim_C3_amended :
    (∀ tokens : List Tok, (∀ t ∈ tokens, isLitTok t = true) →
       trim_lex tokens = tokens) ∧
    (lexNoTrim srcTrimDoctest).map
        (fun toks => decide (trim_lex (trim_lex toks) = trim_lex toks)) =
      Except.ok true := by
  constructor
  · intro tokens h
    have hgo : ∀ (n : Nat) (toks : List Tok) (i : Nat) (lt : Option Nat),
        (∀ t ∈ toks, isLitTok t = true) → trimGo n toks i lt = toks := by
      intro n
      induction n with
      | zero => intro toks i lt _; rfl
      | succ m ih =>
        intro toks i lt hl
        have hstep : trimStep toks i lt = (toks, lt) := by
          unfold trimStep
          cases hg : toks.get? i with
          | none => rfl
          | some t =>
            cases t with
            | lit s => rfl
            | dir text pos =>
              have := hl _ (List.get?_mem hg)
              simp [isLitTok] at this
        simp only [trimGo, hstep]
        exact ih toks (i + 1) lt hl
    exact hgo tokens.length tokens 0 none h
  · rfl

/-- Witness for the amended C3: the trimmer leaves a directive-free token
list unchanged. -/
theorem claim_C3_witness : trim_lex [Tok.lit ['a']] = [Tok.lit ['a']] :=
  claim_C3_amended.1 [Tok.lit ['a']] (by decide)

/-- Counterexample for C6: a comment directive alone on its source line is
not whitespace-trimmed (the literal after it keeps its newline), while the
same source with a `break` directive is trimmed. -/
theorem claim_C6_counterexample :
    lexTrim srcCommentLine =
      Except.ok [Tok.lit "x\n".toList, Tok.dir "#c".toList (2, 3),
                 Tok.lit "\ny".toList] ∧
    lexTrim srcBreakLine =
      Except.ok [Tok.lit "x\n".toList, Tok.dir "break".toList (2, 3),
                 Tok.lit "y".toList] :=
  ⟨rfl, rfl⟩

/-- Claim C6 (amended): the trimmer only recognizes the control-keyword
directives; a directive whose stripped text is neither statement-prefixed
nor a single statement — in particular every comment directive (stripped
text starting with `#`) and every plain expression — has its text stripped
but its neighbours left untouched. -/
theorem claim_C6_amended :
    (∀ (tokens : List Tok) (i : Nat) (lt : Option Nat) (text : List Char)
       (pos : Pos),
       tokens.get? i = some (Tok.dir text pos) →
       statement_re_search (pyStrip text) = false →
       (pyStrip text ∈ single_statements → False) →
       trimStep tokens i lt = (tokens.set i (Tok.dir (pyStrip text) pos), lt)) ∧
    (∀ cs : List Char, statement_re_search ('#' :: cs) = false ∧
       (('#' :: cs) ∈ single_statements → False)) := by
  constructor
  · intro tokens i lt text pos hget h1 h2
    unfold trimStep
    rw [hget]
    simp [h1, h2]
    intro hmem
    exact absurd hmem h2
  · intro cs
    constructor
    · simp [statement_re_search, List.isPrefixOf]
    · intro hmem
      simp [single_statements] at hmem

/-- Witness for the amended C6: trimming a token list whose only directive
is the comment `#c` just strips the directive text and changes nothing
else. -/
theorem claim_C6_witness :
    trimStep [Tok.dir "#c".toList (1, 3)] 0 none =
      ([Tok.dir "#c".toList (1, 3)].set 0 (Tok.dir (pyStrip "#c".toList) (1, 3)),
       none) :=
  claim_C6_amended.1 [Tok.dir "#c".toList (1, 3)] 0 none "#c".toList (1, 3)
    rfl (by decide) (by decide)

/-- Counterexample for C5: the value inserted under `self` is the
`TemplateObject` itself, and looking up an attribute name absent from the
defs on it fails with an `AttributeError` rather than yielding the `Empty`
sentinel; the sentinel fallback only exists on the object's `get` wrapper. -/
theorem claim_C5_counterexample :
    getattrValue (inheritSelf [] "out") "block" =
      Except.error "AttributeError: block" ∧
    getattrValue (Value.getterOf (inheritSelfAttrs [] "out")) "block" =
      Except.ok Value.empty :=
  ⟨rfl, rfl⟩

/-- Claim C5 (amended): the proxy inserted under the reserved key `self`
exposes each defs entry (other than one named `body`, which the final
`self_.body` assignment overwrites) and a `body` attribute equal to the
child's output; when no def is named `get`, `self.get` is the
`TemplateObjectGetter` wrapper, while a def named `get` overwrites the
wrapper attribute and is returned instead; the `Empty`-sentinel fallback
for names absent from the defs is provided by the `get` wrapper
(`self.get.NAME`), not by direct attribute lookup on the proxy, which
fails for missing names; the sentinel stringifies to empty text, iterates
as empty, and is falsy.  The `Nodup` hypotheses encode dict
key-uniqueness, and `v ≠ getterMarker` that a defs value is never the
internal wrapper reference. -/
theorem claim_C5_amended :
    (∀ (defs : NS) (body : String) (a : String) (v : Value),
       (defs.map Prod.fst).Nodup → nsGet defs a = some v → a ≠ "body" →
       v ≠ Value.getterMarker →
       getattrValue (inheritSelf defs body) a = Except.ok v) ∧
    (∀ (defs : NS) (body : String),
       getattrValue (inheritSelf defs body) "body" = Except.ok (Value.str body)) ∧
    (∀ (defs : NS) (body : String),
       nsGet defs "get" = none →
       getattrValue (inheritSelf defs body) "get" =
         Except.ok (Value.getterOf (inheritSelfAttrs defs body))) ∧
    (∀ (defs : NS) (body : String) (v : Value),
       (defs.map Prod.fst).Nodup → nsGet defs "get" = some v →
       v ≠ Value.getterMarker →
       getattrValue (inheritSelf defs body) "get" = Except.ok v) ∧
    (∀ (defs : NS) (body : String) (a : String),
       nsGet defs a = none → a ≠ "body" → a ≠ "get" →
       getattrValue (Value.getterOf (inheritSelfAttrs defs body)) a =
         Except.ok Value.empty) ∧
    (∀ (defs : NS) (body : String) (a : String),
       nsGet defs a = none → a ≠ "body" → a ≠ "get" →
       ∃ m, getattrValue (inheritSelf defs body) a = Except.error m) ∧
    valueStr Value.empty = "" ∧ truthy Value.empty = false ∧
    valueIter Value.empty = Except.ok [] ∧
    (∀ (defs : NS) (body : String) (ns : NS),
       nsGet (inheritNs defs body ns) "self" = some (inheritSelf defs body)) := by
  refine ⟨?_, ?_, ?_, ?_, ?_, ?_, rfl, rfl, rfl, ?_⟩
  · intro defs body a v hnd h hbody hmk
    have h1 := nsGet_inheritSelfAttrs_some defs body a v hnd h hbody
    simp only [inheritSelf, getattrValue, h1]
  · intro defs body
    have h1 : nsGet (inheritSelfAttrs defs body) "body" = some (Value.str body) :=
      nsGet_set_self _ _ _
    simp only [inheritSelf, getattrValue, h1]
  · intro defs body h
    have h1 : nsGet (inheritSelfAttrs defs body) "get" = some Value.getterMarker := by
      rw [inheritSelfAttrs, nsGet_set_ne _ _ _ _ (by decide : ("get" : String) ≠ "body"),
        nsGet_update_not_mem defs _ "get" (nsGet_none_forall defs "get" h)]
      rfl
    simp only [inheritSelf, getattrValue, h1]
  · intro defs body v hnd h hmk
    have h1 := nsGet_inheritSelfAttrs_some defs body "get" v hnd h (by decide)
    simp only [inheritSelf, getattrValue, h1]
  · intro defs body a h hbody hget
    have h1 := nsGet_inheritSelfAttrs_none defs body a h hbody hget
    simp only [getattrValue, getterGetattr, h1]
  · intro defs body a h hbody hget
    refine ⟨"AttributeError: " ++ a, ?_⟩
    have h1 := nsGet_inheritSelfAttrs_none defs body a h hbody hget
    simp only [inheritSelf, getattrValue, h1]
  · intro defs body ns
    exact nsGet_set_self ns "self" (inheritSelf defs body)

/-- Witness for the amended C5: a def `blk` defined to render `"T"` is
visible as `self.blk`, `self.get` is the wrapper when no def is named
`get` but is the def value when one is, and the `get` wrapper resolves a
missing name to the `Empty` sentinel. -/
theorem claim_C5_witness :
    getattrValue (inheritSelf [("blk", Value.str "T")] "B") "blk" =
      Except.ok (Value.str "T") ∧
    getattrValue (inheritSelf [("blk", Value.str "T")] "B") "get" =
      Except.ok (Value.getterOf (inheritSelfAttrs [("blk", Value.str "T")] "B")) ∧
    getattrValue (inheritSelf [("get", Value.str "D")] "B") "get" =
      Except.ok (Value.str "D") ∧
    getattrValue (Value.getterOf (inheritSelfAttrs [("blk", Value.str "T")] "B"))
      "missing" = Except.ok Value.empty :=
  ⟨claim_C5_amended.1 [("blk", Value.str "T")] "B" "blk" (Value.str "T")
      (by decide) rfl (by decide) (fun h => Value.noConfusion h),
   claim_C5_amended.2.2.1 [("blk", Value.str "T")] "B" rfl,
   claim_C5_amended.2.2.2.1 [("get", Value.str "D")] "B" (Value.str "D")
      (by decide) rfl (fun h => Value.noConfusion h),
   claim_C5_amended.2.2.2.2.1 [("blk", Value.str "T")] "B" "missing" rfl
      (by decide) (by decide)⟩

/-- Counterexample for C4: the parser does not reject the if/else/else
shape — `srcDoubleElse` parses successfully into a single `Cond` node whose
branch kinds are `if`, `else`, `else` (two else branches, the first of them
not last). -/
theorem claim_C4_counterexample :
    (parseStr srcDoubleElse).map (fun nodes => nodes.map condKinds) =
      Except.ok [[CondKind.cIf, CondKind.cElse, CondKind.cElse]] := rfl

/-- Claim C4 (amended): an `elif`/`else` directive without a preceding `if`
in the same block is rejected by `parse_expr` with an
`... outside of an if block` error at the directive's position; the
at-most-one-final-`Else` shape of a `Cond` is not enforced — if/else/else
parses successfully (see the counterexample). -/
theorem claim_C4_amended :
    (∀ (fuel : Nat) (text : List Char) (pos : Pos) (rest : List Tok)
       (context : List String),
       (pyStrip text = "else".toList ∨
         ∃ tail, pyStrip text = "elif ".toList ++ tail) →
       parse_expr (fuel + 1) (Tok.dir text pos :: rest) context =
         Except.error ⟨String.mk (pyFirstWord (pyStrip text)) ++
           " outside of an if block", some pos⟩) ∧
    (parseStr srcDoubleElse).toOption.isSome = true := by
  constructor
  · intro fuel text pos rest context h
    rcases h with h | ⟨tail, h⟩
    · simp [parse_expr, h, pyFirstWord, pyIsSpace, List.isPrefixOf]
    · simp [parse_expr, h, pyFirstWord, pyIsSpace, List.isPrefixOf]
  · rfl

/-- Witness for the amended C4: a bare `else` directive fails with
`else outside of an if block` at its position. -/
theorem claim_C4_witness :
    parse_expr 1 [Tok.dir "else".toList (1, 3)] [] =
      Except.error ⟨"else outside of an if block", some (1, 3)⟩ :=
  claim_C4_amended.1 0 "else".toList (1, 3) [] [] (Or.inl rfl)

/-- A successful `lexLoop` run that starts inside a directive begins with
the directive token emitted at the closing delimiter. -/
theorem lexLoop_true_head (s d0 d1 : List Char) :
    ∀ (ms : List (Nat × Bool)) (last : Nat) (lastPos : Pos) (l : List Tok),
      lexLoop s d0 d1 ms true last lastPos = Except.ok l →
      ∃ t p rest, l = Tok.dir t p :: rest := by
  intro ms last lastPos l h
  cases ms with
  | nil => simp [lexLoop] at h
  | cons m ms' =>
    obtain ⟨start, isOpen⟩ := m
    cases isOpen with
    | true => simp [lexLoop] at h
    | false =>
      simp only [lexLoop, Bool.false_and, Bool.not_false, Bool.not_true,
        Bool.true_and, Bool.and_false, if_false, Bool.false_eq_true] at h
      cases hrec : lexLoop s d0 d1 ms' false (start + d1.length)
          (find_position s (start + d1.length) last lastPos) with
      | error e => rw [hrec] at h; simp at h
      | ok rest =>
        rw [hrec] at h
        simp only [Except.ok.injEq] at h
        exact ⟨_, _, rest, h.symm⟩

/-- No successful `lexLoop` run produces two adjacent literal tokens: a
literal is only emitted at an opening delimiter (or at end of input), and
the next token emitted after that is always a directive. -/
theorem lexLoop_noAdjLits (s d0 d1 : List Char) :
    ∀ (ms : List (Nat × Bool)) (inExpr : Bool) (last : Nat) (lastPos : Pos)
      (l : List Tok),
      lexLoop s d0 d1 ms inExpr last lastPos = Except.ok l →
      noAdjacentLits l = true := by
  intro ms
  induction ms with
  | nil =>
    intro inExpr last lastPos l h
    cases inExpr with
    | true => simp [lexLoop] at h
    | false =>
      simp only [lexLoop, Bool.false_eq_true, if_false, Except.ok.injEq] at h
      rw [← h]
      by_cases hp : s.drop last = [] <;> simp [hp, noAdjacentLits]
  | cons m ms' ih =>
    intro inExpr last lastPos l h
    obtain ⟨start, isOpen⟩ := m
    cases isOpen with
    | false =>
      cases inExpr with
      | false => simp [lexLoop] at h
      | true =>
        simp only [lexLoop, Bool.false_and, Bool.not_false, Bool.not_true,
          Bool.true_and, Bool.and_false, if_false, Bool.false_eq_true] at h
        cases hrec : lexLoop s d0 d1 ms' false (start + d1.length)
            (find_position s (start + d1.length) last lastPos) with
        | error e => rw [hrec] at h; simp at h
        | ok rest =>
          rw [hrec] at h
          simp only [Except.ok.injEq] at h
          rw [← h, noAdjacentLits_dir_cons]
          exact ih false _ _ rest hrec
    | true =>
      cases inExpr with
      | true => simp [lexLoop] at h
      | false =>
        simp only [lexLoop, Bool.true_and, Bool.and_false, Bool.not_true,
          Bool.false_and, Bool.false_eq_true, if_false, if_true] at h
        cases hrec : lexLoop s d0 d1 ms' true (start + d0.length)
            (find_position s (start + d0.length) last lastPos) with
        | error e => rw [hrec] at h; simp at h
        | ok rest =>
          rw [hrec] at h
          simp only [Except.ok.injEq] at h
          rw [← h]
          by_cases hp : (s.drop last).take (start - last) = []
          · rw [if_pos hp]
            exact ih true _ _ rest hrec
          · rw [if_neg hp]
            obtain ⟨t, p, r2, hr⟩ := lexLoop_true_head s d0 d1 ms' _ _ rest hrec
            have hnr := ih true _ _ rest hrec
            rw [hr, noAdjacentLits_dir_cons] at hnr
            rw [hr]
            simp only [noAdjacentLits, isLitTok, Bool.and_false, Bool.not_false,
              Bool.true_and]
            rw [noAdjacentLits_dir_cons]
            exact hnr

/-- Counterexample for C8: the lexer output does not strictly alternate —
two directives back to back lex to two adjacent directive tokens because
the empty literal run between them is dropped. -/
theorem claim_C8_counterexample :
    lexNoTrim srcAdjacentDirs =
      Except.ok [Tok.dir ['a'] (1, 3), Tok.dir ['b'] (1, 8)] ∧
    strictlyAlternating [Tok.dir ['a'] (1, 3), Tok.dir ['b'] (1, 8)] = false :=
  ⟨rfl, rfl⟩

/-- Claim C8 (amended): the lexer never emits two adjacent literal-text
tokens (literal runs between directives stay single tokens, and literal
runs separated by a closed-then-reopened directive remain separate tokens),
but directive tokens can be adjacent: an empty literal run between two
directives is dropped rather than emitted. -/
theorem claim_C8_amended :
    (∀ (s : List Char) (off : Int) (d0 d1 : List Char) (l : List Tok),
       lexRaw s off d0 d1 = Except.ok l → noAdjacentLits l = true) ∧
    lexNoTrim srcLitDirLit =
      Except.ok [Tok.lit ['a'], Tok.dir ['x'] (1, 4), Tok.lit ['b']] := by
  constructor
  · intro s off d0 d1 l h
    exact lexLoop_noAdjLits s d0 d1 _ false 0 (off + 1, 1) l h
  · rfl

/-- Witness for the amended C8: the lex of two adjacent directives contains
no adjacent literal tokens. -/
theorem claim_C8_witness :
    noAdjacentLits [Tok.dir ['a'] (1, 3), Tok.dir ['b'] (1, 8)] = true :=
  claim_C8_amended.1 srcAdjacentDirs.toList 0 delimOpen delimClose
    [Tok.dir ['a'] (1, 3), Tok.dir ['b'] (1, 8)] rfl

/-- Scanning a concatenation scans the parts in sequence. -/
theorem scanPosAux_append (a b : List Char) (p : Pos) :
    scanPosAux (a ++ b) p = scanPosAux b (scanPosAux a p) := by
  induction a generalizing p with
  | nil => simp [scanPosAux]
  | cons c rest ih => simp [scanPosAux, ih]

/-- The line after a scan: the starting line plus the newline count. -/
theorem scanPosAux_fst (l : List Char) : ∀ p : Pos,
    (scanPosAux l p).1 = p.1 + l.count '\n' := by
  induction l with
  | nil => intro p; simp [scanPosAux]
  | cons c rest ih =>
    intro p
    by_cases hc : c = '\n'
    · subst hc
      simp [scanPosAux, ih, List.count_cons]
      omega
    · simp [scanPosAux, ih, List.count_cons, hc]

/-- A last-occurrence index is a valid index. -/
theorem lastIdxOf_lt_length (c : Char) : ∀ (l : List Char) (k : Nat),
    lastIdxOf c l = some k → k < l.length := by
  intro l
  induction l with
  | nil => intro k h; simp [lastIdxOf] at h
  | cons d rest ih =>
    intro k h
    simp only [lastIdxOf] at h
    cases hr : lastIdxOf c rest with
    | some q =>
      rw [hr] at h
      simp only [Option.some.injEq] at h
      have := ih q hr
      simp only [List.length_cons]
      omega
    | none =>
      rw [hr] at h
      by_cases hd : d = c
      · rw [if_pos hd] at h
        simp only [Option.some.injEq] at h
        simp only [List.length_cons]
        omega
      · rw [if_neg hd] at h
        simp at h

/-- A character occurs zero times iff it has no last occurrence. -/
theorem count_zero_iff_lastIdxOf_none (c : Char) : ∀ l : List Char,
    l.count c = 0 ↔ lastIdxOf c l = none := by
  intro l
  induction l with
  | nil => simp [lastIdxOf]
  | cons d rest ih =>
    simp only [List.count_cons, lastIdxOf]
    constructor
    · intro h
      have h1 : rest.count c = 0 := by
        by_cases hd : d = c <;> simp [hd] at h <;> omega
      have h2 : ¬(d = c) := by
        intro hd
        simp [hd] at h
      rw [(ih.mp h1)]
      simp [h2]
    · intro h
      cases hr : lastIdxOf c rest with
      | some q => rw [hr] at h; simp at h
      | none =>
        rw [hr] at h
        by_cases hd : d = c
        · rw [if_pos hd] at h; simp at h
        · have := ih.mpr hr
          simp [hd, this]

/-- The column after scanning newline-free text advances by its length. -/
theorem scanPosAux_snd_none (l : List Char) : ∀ p : Pos,
    lastIdxOf '\n' l = none → (scanPosAux l p).2 = p.2 + l.length := by
  induction l with
  | nil => intro p _; simp [scanPosAux]
  | cons c rest ih =>
    intro p h
    simp only [lastIdxOf] at h
    cases hr : lastIdxOf '\n' rest with
    | some q => rw [hr] at h; simp at h
    | none =>
      rw [hr] at h
      by_cases hc : c = '\n'
      · rw [if_pos hc] at h; simp at h
      · simp only [scanPosAux, if_neg hc]
        rw [ih _ hr]
        simp only [List.length_cons]
        push_cast
        ring

/-- The column after scanning text whose last newline sits at index `k` is
the distance from that newline to the end. -/
theorem scanPosAux_snd_some (l : List Char) : ∀ (p : Pos) (k : Nat),
    lastIdxOf '\n' l = some k →
    (scanPosAux l p).2 = ((l.length - k : Nat) : Int) := by
  induction l with
  | nil => intro p k h; simp [lastIdxOf] at h
  | cons c rest ih =>
    intro p k h
    simp only [lastIdxOf] at h
    cases hr : lastIdxOf '\n' rest with
    | some q =>
      rw [hr] at h
      simp only [Option.some.injEq] at h
      simp only [scanPosAux]
      rw [ih _ q hr]
      simp only [List.length_cons, ← h, Nat.succ_sub_succ]
    | none =>
      rw [hr] at h
      by_cases hc : c = '\n'
      · rw [if_pos hc] at h
        simp only [Option.some.injEq] at h
        simp only [scanPosAux, if_pos hc]
        rw [scanPosAux_snd_none rest _ hr]
        simp only [List.length_cons, ← h]
        push_cast
        ring
      · rw [if_neg hc] at h
        simp at h

/-- Scanning preserves 1-based line and column bounds. -/
theorem scanPosAux_ge_one (l : List Char) : ∀ p : Pos, 1 ≤ p.1 → 1 ≤ p.2 →
    1 ≤ (scanPosAux l p).1 ∧ 1 ≤ (scanPosAux l p).2 := by
  induction l with
  | nil => intro p h1 h2; exact ⟨h1, h2⟩
  | cons c rest ih =>
    intro p h1 h2
    by_cases hc : c = '\n'
    · simp only [scanPosAux, if_pos hc]
      exact ih _ (by omega) (by omega)
    · simp only [scanPosAux, if_neg hc]
      exact ih _ h1 (by omega)


/-- Claim C9: the incremental position computation agrees with the
from-scratch scan — for offsets `j ≤ i` within the string, `find_position`
at `i` seeded with the scanned position of `j` equals the scanned position
of `i`, and every scanned position has line and column at least 1. -/
theorem claim_C9 (s : List Char) (i j : Nat) (hji : j ≤ i) (hil : i ≤ s.length) :
    find_position s i j (scanPos s j) = scanPos s i ∧
    1 ≤ (scanPos s i).1 ∧ 1 ≤ (scanPos s i).2 := by
  have hpos := scanPosAux_ge_one (s.take i) (1, 1) (by norm_num) (by norm_num)
  refine ⟨?_, hpos.1, hpos.2⟩
  have hsplit : s.take i = s.take j ++ (s.drop j).take (i - j) := by
    calc s.take i = s.take (j + (i - j)) := by rw [Nat.add_sub_cancel' hji]
      _ = s.take j ++ (s.drop j).take (i - j) := List.take_add s j (i - j)
  have hlen : ((s.drop j).take (i - j)).length = i - j := by
    simp only [List.length_take, List.length_drop]
    omega
  have hscan : scanPos s i = scanPosAux ((s.drop j).take (i - j)) (scanPos s j) := by
    rw [scanPos, hsplit, scanPosAux_append]
    rfl
  rw [hscan]
  unfold find_position pyCount pyRFind
  by_cases hzero : ((s.drop j).take (i - j)).count '\n' = 0
  · have hnone : lastIdxOf '\n' ((s.drop j).take (i - j)) = none :=
      (count_zero_iff_lastIdxOf_none _ _).mp hzero
    rw [Prod.ext_iff]
    constructor
    · simp only [scanPosAux_fst, hzero]
    · simp only [hzero, lt_irrefl, if_false]
      rw [scanPosAux_snd_none _ _ hnone, hlen]
      push_cast [hji]
      ring
  · obtain ⟨k, hk⟩ : ∃ k, lastIdxOf '\n' ((s.drop j).take (i - j)) = some k := by
      cases hl : lastIdxOf '\n' ((s.drop j).take (i - j)) with
      | none => exact absurd ((count_zero_iff_lastIdxOf_none _ _).mpr hl) hzero
      | some k => exact ⟨k, rfl⟩
    have hklt := lastIdxOf_lt_length '\n' _ k hk
    rw [hlen] at hklt
    rw [Prod.ext_iff]
    constructor
    · simp only [scanPosAux_fst]
    · have hposcount : 0 < ((s.drop j).take (i - j)).count '\n' :=
        Nat.pos_of_ne_zero hzero
      simp only [hposcount, if_true, hk]
      rw [scanPosAux_snd_some _ _ k hk, hlen]
      omega

/-- Witness for C9: concrete agreement on the string `a\
b` at offsets
`j=1`, `i=3`. -/
theorem claim_C9_witness :
    find_position "a\nb".toList 3 1 (scanPos "a\nb".toList 1) =
      scanPos "a\nb".toList 3 ∧
    1 ≤ (scanPos "a\nb".toList 3).1 ∧ 1 ≤ (scanPos "a\nb".toList 3).2 :=
  claim_C9 "a\nb".toList 3 1 (by decide) (by decide)


end TempitaLite
